import Mathlib

/-!
Shallow embedding of the EKG (Event Knowledge Graph) core of the
`news_agent` repository: the entity model (`src/ekg/models.py`), the
data-access layer (`src/ekg/repository.py`) and the graph aggregate
computations (`src/ekg/graph_ops.py`).

Modelling conventions:
* The SQLAlchemy session/store is a `Store` record of insertion-ordered
  lists, one per table, plus autoincrement counters.  `filter_by(...).first()`
  becomes `List.find?`; committing a mutated ORM row becomes an id-keyed
  replacement (`setSource`/`setEvent`/`setClaim`).
* `datetime.utcnow()` is an abstract tick passed in as a `now : Nat`
  argument.
* Python floats are idealised as exact rationals (`ℚ`); `round(x, 2)`
  is `round2`, round-half-to-even at two decimal places.
* A Python function that returns an object or `None` / an empty dict on
  a missing key becomes `Option`-valued.
* JSON payloads whose content the code never inspects (verification
  results, evidence lists) are abstracted to `Option String` /
  `List String`; Python truthiness of an absent/empty payload is the
  `none` case.
-/

namespace NewsEKG

/-- `SourceType` enumeration from `models.py`. -/
inductive SourceType where
  | official_media
  | social_media
  | news_outlet
  | blog
  | forum
  | anonymous
  | unknown
deriving DecidableEq, Repr

/-- `EventStatus` enumeration from `models.py`. -/
inductive EventStatus where
  | developing
  | investigated
  | verified
  | refuted
deriving DecidableEq, Repr

/-- `ClaimStatus` enumeration from `models.py`. -/
inductive ClaimStatus where
  | pending
  | verified
  | refuted
  | unverifiable
deriving DecidableEq, Repr

/-- A row of the `sources` table (`models.py::Source`). -/
structure Source where
  id : Nat
  name : String
  type : SourceType
  credit_score : Int
  url : Option String
  description : Option String
  total_claims : Nat
  verified_claims : Nat
  refuted_claims : Nat
  created_at : Nat
  updated_at : Nat
deriving DecidableEq, Repr

/-- A row of the `events` table (`models.py::Event`). -/
structure Event where
  id : String
  status : EventStatus
  title : Option String
  description : Option String
  credibility_score : ℚ
  created_at : Nat
  updated_at : Nat
deriving DecidableEq, Repr

/-- A row of the `claims` table (`models.py::Claim`). -/
structure Claim where
  id : Nat
  text : String
  status : ClaimStatus
  event_id : Option String
  source_id : Nat
  verification_result : Option String
  timestamp : Nat
  created_at : Nat
deriving DecidableEq, Repr

/-- A row of the `claim_refutations` table (`models.py::ClaimRefutation`). -/
structure ClaimRefutation where
  id : Nat
  refuting_claim_id : Nat
  refuted_claim_id : Nat
  confidence : ℚ
  evidence : List String
  created_at : Nat
deriving DecidableEq, Repr

/-- The database state visible to the repository: each table as an
insertion-ordered list, plus the autoincrement counters. -/
structure Store where
  sources : List Source
  events : List Event
  claims : List Claim
  refutations : List ClaimRefutation
  next_source_id : Nat
  next_claim_id : Nat
  next_refutation_id : Nat
deriving DecidableEq, Repr

/-- The empty database. -/
def Store.empty : Store :=
  { sources := [], events := [], claims := [], refutations := [],
    next_source_id := 1, next_claim_id := 1, next_refutation_id := 1 }

/-- `session.query(Source).filter_by(id=source_id).first()`. -/
def findSourceById (st : Store) (source_id : Nat) : Option Source :=
  st.sources.find? (fun s => s.id == source_id)

/-- `repository.py::get_source_by_name` —
`session.query(Source).filter_by(name=name).first()`. -/
def get_source_by_name (st : Store) (name : String) : Option Source :=
  st.sources.find? (fun s => s.name == name)

/-- Committing a mutated `Source` ORM row: replace the row with that id. -/
def setSource (st : Store) (s : Source) : Store :=
  { st with sources := st.sources.map (fun x => if x.id == s.id then s else x) }

/-- `repository.py::get_event` —
`session.query(Event).filter_by(id=event_id).first()`. -/
def get_event (st : Store) (event_id : String) : Option Event :=
  st.events.find? (fun e => e.id == event_id)

/-- Committing a mutated `Event` ORM row: replace the row with that id. -/
def setEvent (st : Store) (e : Event) : Store :=
  { st with events := st.events.map (fun x => if x.id == e.id then e else x) }

/-- `session.query(Claim).filter_by(id=claim_id).first()`. -/
def findClaimById (st : Store) (claim_id : Nat) : Option Claim :=
  st.claims.find? (fun c => c.id == claim_id)

/-- Committing a mutated `Claim` ORM row: replace the row with that id. -/
def setClaim (st : Store) (c : Claim) : Store :=
  { st with claims := st.claims.map (fun x => if x.id == c.id then c else x) }

/-- `repository.py::find_or_create_source`: look up by name; if absent,
insert a fresh row whose unspecified columns take the `models.py`
defaults (`credit_score = 50`, zero counters). The optional keyword
attributes the callers pass (`url`, `description`) are modelled
explicitly. -/
def find_or_create_source (st : Store) (name : String) (source_type : SourceType)
    (url description : Option String) (now : Nat) : Source × Store :=
  match get_source_by_name st name with
  | some source => (source, st)
  | none =>
      let source : Source :=
        { id := st.next_source_id, name := name, type := source_type,
          credit_score := 50, url := url, description := description,
          total_claims := 0, verified_claims := 0, refuted_claims := 0,
          created_at := now, updated_at := now }
      (source, { st with sources := st.sources ++ [source],
                         next_source_id := st.next_source_id + 1 })

/-- `repository.py::update_source_credit_score`: clamp the adjusted score
into `[0, 100]`, stamp `updated_at`, return `True`; `False` when the id
is unknown. -/
def update_source_credit_score (st : Store) (source_id : Nat) (change : Int)
    (now : Nat) : Bool × Store :=
  match findSourceById st source_id with
  | none => (false, st)
  | some source =>
      let new_score := max 0 (min 100 (source.credit_score + change))
      (true, setSource st { source with credit_score := new_score, updated_at := now })

/-- The statistics bundle returned by `get_source_statistics`. -/
structure SourceStatistics where
  total_claims : Nat
  verified_claims : Nat
  refuted_claims : Nat
  accuracy_rate : ℚ
  credit_score : Int
deriving DecidableEq, Repr

/-- `repository.py::get_source_statistics`: the empty-dict return on an
unknown id is modelled as `none`. -/
def get_source_statistics (st : Store) (source_id : Nat) : Option SourceStatistics :=
  match findSourceById st source_id with
  | none => none
  | some source =>
      some { total_claims := source.total_claims,
             verified_claims := source.verified_claims,
             refuted_claims := source.refuted_claims,
             accuracy_rate :=
               if 0 < source.total_claims then
                 (source.verified_claims : ℚ) / (source.total_claims : ℚ) * 100
               else 0,
             credit_score := source.credit_score }

/-- `repository.py::create_event` (status and scores take the `models.py`
column defaults). -/
def create_event (st : Store) (event_id : String) (title description : Option String)
    (now : Nat) : Event × Store :=
  let event : Event :=
    { id := event_id, status := EventStatus.developing, title := title,
      description := description, credibility_score := 50,
      created_at := now, updated_at := now }
  (event, { st with events := st.events ++ [event] })

/-- `repository.py::update_event_status`. -/
def update_event_status (st : Store) (event_id : String) (status : EventStatus)
    (credibility_score : Option ℚ) (now : Nat) : Bool × Store :=
  match get_event st event_id with
  | none => (false, st)
  | some event =>
      let event1 := { event with status := status }
      let event2 :=
        match credibility_score with
        | some c => { event1 with credibility_score := c }
        | none => event1
      (true, setEvent st { event2 with updated_at := now })

/-- `repository.py::create_claim`: insert the claim (status takes the
`pending` column default), then increment the owning source's
`total_claims` only when that source row exists (`if source:`), and
return the claim.  Note the function has no failure path. -/
def create_claim (st : Store) (text : String) (source_id : Nat)
    (event_id : Option String) (now : Nat) : Claim × Store :=
  let claim : Claim :=
    { id := st.next_claim_id, text := text, status := ClaimStatus.pending,
      event_id := event_id, source_id := source_id,
      verification_result := none, timestamp := now, created_at := now }
  let st1 := { st with claims := st.claims ++ [claim],
                       next_claim_id := st.next_claim_id + 1 }
  let st2 :=
    match findSourceById st1 source_id with
    | some source => setSource st1 { source with total_claims := source.total_claims + 1 }
    | none => st1
  (claim, st2)

/-- `repository.py::update_claim_status`: set the claim's status
(remembering the old one), optionally store the verification result
(Python truthiness: an absent payload is `none`), and bump the owning
source's `verified_claims`/`refuted_claims` exactly on a transition into
that status from a different status. -/
def update_claim_status (st : Store) (claim_id : Nat) (status : ClaimStatus)
    (verification_result : Option String) : Bool × Store :=
  match findClaimById st claim_id with
  | none => (false, st)
  | some claim =>
      let old_status := claim.status
      let claim1 := { claim with status := status }
      let claim2 :=
        match verification_result with
        | some v => { claim1 with verification_result := some v }
        | none => claim1
      let st1 := setClaim st claim2
      let st2 :=
        match findSourceById st1 claim.source_id with
        | some source =>
            if old_status ≠ ClaimStatus.verified ∧ status = ClaimStatus.verified then
              setSource st1 { source with verified_claims := source.verified_claims + 1 }
            else if old_status ≠ ClaimStatus.refuted ∧ status = ClaimStatus.refuted then
              setSource st1 { source with refuted_claims := source.refuted_claims + 1 }
            else st1
        | none => st1
      (true, st2)

/-- `repository.py::get_claims_by_event`. -/
def get_claims_by_event (st : Store) (event_id : String) : List Claim :=
  st.claims.filter (fun c => c.event_id == some event_id)

/-- `repository.py::create_claim_refutation`: insert the edge exactly as
given (`evidence or []`); the function performs no validation. -/
def create_claim_refutation (st : Store) (refuting_claim_id refuted_claim_id : Nat)
    (confidence : ℚ) (evidence : Option (List String)) (now : Nat) :
    ClaimRefutation × Store :=
  let refutation : ClaimRefutation :=
    { id := st.next_refutation_id, refuting_claim_id := refuting_claim_id,
      refuted_claim_id := refuted_claim_id, confidence := confidence,
      evidence := evidence.getD [], created_at := now }
  (refutation, { st with refutations := st.refutations ++ [refutation],
                         next_refutation_id := st.next_refutation_id + 1 })

/-- One element of the `get_trending_sources` result. -/
structure SourceSummary where
  name : String
  type : SourceType
  credit_score : Int
  total_claims : Nat
deriving DecidableEq, Repr

/-- The projection of a `Source` row into the summary dictionary built
by `get_trending_sources`'s list comprehension. -/
def sourceSummaryOf (s : Source) : SourceSummary :=
  { name := s.name, type := s.type,
    credit_score := s.credit_score, total_claims := s.total_claims }

/-- An ordering comparison consistent with
`order_by(Source.total_claims.desc())`. -/
def trendingLE (a b : Source) : Bool :=
  b.total_claims ≤ a.total_claims

/-- `repository.py::get_trending_sources` issues `ORDER BY total_claims
DESC LIMIT limit` with no secondary sort key.  SQL leaves the relative
order of rows with equal `total_claims` unspecified (and the configured
engines give no stability guarantee), so the call is embedded as the
relation of admissible results: `out` is a possible return value iff it
is the `limit`-prefix of some reordering of the sources table that is
sorted by `total_claims` descending, projected to summaries. -/
def get_trending_sources (st : Store) (limit : Nat) (out : List SourceSummary) : Prop :=
  ∃ l : List Source, l.Perm st.sources ∧
    l.Pairwise (fun a b => b.total_claims ≤ a.total_claims) ∧
    out = (l.take limit).map sourceSummaryOf

/-- Round-half-to-even to the nearest integer (the rounding mode of
Python's builtin `round`). -/
def roundHalfEven (q : ℚ) : ℤ :=
  let f := ⌊q⌋
  if q - f < 1/2 then f
  else if (1 : ℚ)/2 < q - f then f + 1
  else if Even f then f else f + 1

/-- Python's `round(q, 2)`. -/
def round2 (q : ℚ) : ℚ :=
  (roundHalfEven (q * 100) : ℚ) / 100

/-- The three shapes of dictionary `calculate_event_credibility` can
return: the error dict for a missing event, the neutral dict for an
event without claims, and the full analysis dict. -/
inductive CredibilityResult where
  | eventNotFound : CredibilityResult
  | noClaims (credibility_score : ℚ) (confidence reason : String) : CredibilityResult
  | result (credibility_score : ℚ) (verified_claims refuted_claims total_claims : Nat)
      (confidence : String) : CredibilityResult
deriving DecidableEq, Repr

/-- `graph_ops.py::calculate_event_credibility`, translated clause by
clause: neutral 50/"low" dict when the event has no claims; otherwise a
50-point baseline plus `(verified/total)*30` minus `(refuted/total)*40`,
blended `0.7/0.3` with the mean credit score collected from each claim's
resolvable source (one entry per claim), rounded to two decimals;
confidence is "high" when the event has at least 3 claims. -/
def calculate_event_credibility (st : Store) (event_id : String) : CredibilityResult :=
  match get_event st event_id with
  | none => CredibilityResult.eventNotFound
  | some _ =>
      let claims := get_claims_by_event st event_id
      if claims.isEmpty then
        CredibilityResult.noClaims 50 "low" "No claims to verify"
      else
        let verified_count := (claims.filter (fun c => c.status == ClaimStatus.verified)).length
        let refuted_count := (claims.filter (fun c => c.status == ClaimStatus.refuted)).length
        let total := claims.length
        let score0 : ℚ :=
          50 + ((verified_count : ℚ) / (total : ℚ)) * 30
             - ((refuted_count : ℚ) / (total : ℚ)) * 40
        let source_scores : List ℤ :=
          claims.filterMap (fun c => (findSourceById st c.source_id).map (fun s => s.credit_score))
        let score :=
          if source_scores.isEmpty then score0
          else
            let avg := ((source_scores.map (fun x : ℤ => (x : ℚ))).sum) / (source_scores.length : ℚ)
            score0 * (7/10) + avg * (3/10)
        CredibilityResult.result (round2 score) verified_count refuted_count total
          (if 3 ≤ total then "high" else "low")

/-- Modelled from the spec claim for comparison (not from the source):
the credibility computation as the claim words it, with the source term
taken as the mean credit score of the DISTINCT sources behind the
event's claims. -/
def eventCredibilityDistinctSpec (st : Store) (event_id : String) : CredibilityResult :=
  match get_event st event_id with
  | none => CredibilityResult.eventNotFound
  | some _ =>
      let claims := get_claims_by_event st event_id
      if claims.isEmpty then
        CredibilityResult.noClaims 50 "low" "No claims to verify"
      else
        let total := claims.length
        let verified_count := claims.countP (fun c => c.status == ClaimStatus.verified)
        let refuted_count := claims.countP (fun c => c.status == ClaimStatus.refuted)
        let distinct_sources :=
          (claims.filterMap (fun c => findSourceById st c.source_id)).dedup
        let base : ℚ :=
          50 + 30 * ((verified_count : ℚ) / (total : ℚ))
             - 40 * ((refuted_count : ℚ) / (total : ℚ))
        let score :=
          if distinct_sources.isEmpty then base
          else
            base * (7/10)
              + (((distinct_sources.map (fun s => (s.credit_score : ℚ))).sum)
                  / (distinct_sources.length : ℚ)) * (3/10)
        CredibilityResult.result (round2 score) verified_count refuted_count total
          (if 3 ≤ total then "high" else "low")

/-- The amended wording of the credibility formula (the source term is
the mean credit score of the claims' sources counted once PER CLAIM),
written in the spec's order of operations, to be proved equal to
`calculate_event_credibility`. -/
def eventCredibilityPerClaimSpec (st : Store) (event_id : String) : CredibilityResult :=
  match get_event st event_id with
  | none => CredibilityResult.eventNotFound
  | some _ =>
      let claims := get_claims_by_event st event_id
      if claims.isEmpty then
        CredibilityResult.noClaims 50 "low" "No claims to verify"
      else
        let total := claims.length
        let verified_count := claims.countP (fun c => c.status == ClaimStatus.verified)
        let refuted_count := claims.countP (fun c => c.status == ClaimStatus.refuted)
        let per_claim_scores : List ℤ :=
          claims.filterMap (fun c => (findSourceById st c.source_id).map (fun s => s.credit_score))
        let base : ℚ :=
          50 + 30 * ((verified_count : ℚ) / (total : ℚ))
             - 40 * ((refuted_count : ℚ) / (total : ℚ))
        let score :=
          if per_claim_scores.isEmpty then base
          else
            base * (7/10)
              + (((per_claim_scores.map (fun x : ℤ => (x : ℚ))).sum)
                  / (per_claim_scores.length : ℚ)) * (3/10)
        CredibilityResult.result (round2 score) verified_count refuted_count total
          (if 3 ≤ total then "high" else "low")

/-! Concrete fixture builders for witnesses and counterexamples. -/

/-- A source row with the given id, name, credit score and counters. -/
def mkSource (i : Nat) (nm : String) (score : Int) (tc v r : Nat) : Source :=
  { id := i, name := nm, type := SourceType.news_outlet, credit_score := score,
    url := none, description := none, total_claims := tc, verified_claims := v,
    refuted_claims := r, created_at := 0, updated_at := 0 }

/-- An event row with the given id. -/
def mkEvent (eid : String) : Event :=
  { id := eid, status := EventStatus.developing, title := none, description := none,
    credibility_score := 50, created_at := 0, updated_at := 0 }

/-- A claim row with the given id, source, optional event and status. -/
def mkClaim (i sid : Nat) (eid : Option String) (stt : ClaimStatus) : Claim :=
  { id := i, text := "t", status := stt, event_id := eid, source_id := sid,
    verification_result := none, timestamp := 0, created_at := 0 }

/-- Folding a list of `(source_id, change, now)` credit updates through
`update_source_credit_score` (the repeated flywheel write path). -/
def applyCreditUpdates (st : Store) (calls : List (Nat × Int × Nat)) : Store :=
  calls.foldl (fun acc call => (update_source_credit_score acc call.1 call.2.1 call.2.2).2) st

/-- Fixture: one source (id 1, fresh counters) owning one pending claim. -/
def stW1 : Store :=
  { Store.empty with sources := [mkSource 1 "A" 50 1 0 0],
                     claims := [mkClaim 1 1 none ClaimStatus.pending] }

/-- Fixture: event "E" with three pending claims, two from source 1
(credit 80) and one from source 2 (credit 20). -/
def stC2 : Store :=
  { Store.empty with
      sources := [mkSource 1 "A" 80 2 0 0, mkSource 2 "B" 20 1 0 0],
      events := [mkEvent "E"],
      claims := [mkClaim 1 1 (some "E") ClaimStatus.pending,
                 mkClaim 2 1 (some "E") ClaimStatus.pending,
                 mkClaim 3 2 (some "E") ClaimStatus.pending],
      next_source_id := 3, next_claim_id := 4 }

/-- Fixture: three sources inserted in order A, B, C where B and C tie
on `total_claims`. -/
def stTrend : Store :=
  { Store.empty with
      sources := [mkSource 1 "A" 50 5 0 0, mkSource 2 "B" 50 2 0 0,
                  mkSource 3 "C" 50 2 0 0],
      next_source_id := 4 }

/-- Fixture: event "E" with one pending claim from a source whose credit
score 1000 escaped the [0,100] invariant. -/
def stClamp : Store :=
  { Store.empty with
      sources := [mkSource 1 "A" 1000 1 0 0],
      events := [mkEvent "E"],
      claims := [mkClaim 1 1 (some "E") ClaimStatus.pending],
      next_source_id := 2, next_claim_id := 2 }

end NewsEKG

namespace NewsEKG

/-! Helper lemmas about id-keyed lookup and replacement. -/

theorem find?_id_of_eq_some {l : List Source} {i : Nat} {s : Source}
    (h : l.find? (fun x => x.id == i) = some s) : s.id = i := by
  have := List.find?_some h
  simpa using this

theorem find?_name_of_eq_some {l : List Source} {nm : String} {s : Source}
    (h : l.find? (fun x => x.name == nm) = some s) : s.name = nm := by
  have := List.find?_some h
  simpa using this

theorem find?_id_replace_self (l : List Source) (i : Nat) (s' : Source) (hid : s'.id = i)
    (h : (l.find? (fun x => x.id == i)).isSome) :
    (l.map (fun x => if x.id == s'.id then s' else x)).find? (fun x => x.id == i) = some s' := by
  induction l with
  | nil => simp at h
  | cons a l ih =>
      by_cases hai : a.id = i
      · have h1 : (a.id == s'.id) = true := by simp [hid, hai]
        have h2 : (s'.id == i) = true := by simp [hid]
        simp only [List.map_cons, h1, if_true]
        exact List.find?_cons_of_pos _ h2
      · have h1 : (a.id == s'.id) = false := by
          simp only [beq_eq_false_iff_ne, ne_eq, hid]
          exact hai
        have h2 : (a.id == i) = false := by
          simp only [beq_eq_false_iff_ne, ne_eq]
          exact hai
        rw [List.find?_cons_of_neg _ (by simp [h2])] at h
        simp only [List.map_cons, h1, Bool.false_eq_true, if_false]
        rw [List.find?_cons_of_neg _ (by simp [h2])]
        exact ih h

theorem find?_id_replace_other (l : List Source) (j : Nat) (s' : Source) (hne : s'.id ≠ j) :
    (l.map (fun x => if x.id == s'.id then s' else x)).find? (fun x => x.id == j)
      = l.find? (fun x => x.id == j) := by
  induction l with
  | nil => simp
  | cons a l ih =>
      by_cases hai : a.id = s'.id
      · have h1 : (a.id == s'.id) = true := by simp [hai]
        have h2 : (s'.id == j) = false := by
          simp only [beq_eq_false_iff_ne, ne_eq]
          exact hne
        have h3 : (a.id == j) = false := by
          simp only [beq_eq_false_iff_ne, ne_eq, hai]
          exact hne
        simp only [List.map_cons, h1, if_true]
        rw [List.find?_cons_of_neg _ (by simp [h2]), List.find?_cons_of_neg _ (by simp [h3])]
        exact ih
      · have h1 : (a.id == s'.id) = false := by
          simp only [beq_eq_false_iff_ne, ne_eq]
          exact hai
        simp only [List.map_cons, h1, Bool.false_eq_true, if_false]
        cases haj : (a.id == j) with
        | true =>
            rw [List.find?_cons_of_pos (p := fun x : Source => x.id == j) _ haj,
              List.find?_cons_of_pos (p := fun x : Source => x.id == j) _ haj]
        | false =>
            rw [List.find?_cons_of_neg (p := fun x : Source => x.id == j) _ (by simp [haj]),
              List.find?_cons_of_neg (p := fun x : Source => x.id == j) _ (by simp [haj])]
            exact ih

theorem findSourceById_setSource_self {st : Store} {i : Nat} {s s' : Source}
    (hfind : findSourceById st i = some s) (hid : s'.id = i) :
    findSourceById (setSource st s') i = some s' := by
  unfold findSourceById setSource
  exact find?_id_replace_self st.sources i s' hid (by
    unfold findSourceById at hfind
    simp [hfind])

theorem findSourceById_setClaim (st : Store) (c : Claim) (i : Nat) :
    findSourceById (setClaim st c) i = findSourceById st i := rfl

/-- Claim C1: for every existing claim, `update_claim_status` increments
the owning source's `verified_claims` (resp. `refuted_claims`) counter
exactly when the claim's status before the call differs from VERIFIED
(resp. REFUTED) and the new status is VERIFIED (resp. REFUTED); in
particular a repeated call with the claim's current status increments
neither counter. -/
theorem updateClaimStatus_counter_transitions
    (st : Store) (claim_id : Nat) (status : ClaimStatus) (vr : Option String)
    (c : Claim) (s : Source)
    (hc : findClaimById st claim_id = some c)
    (hs : findSourceById st c.source_id = some s) :
    (update_claim_status st claim_id status vr).1 = true ∧
    ∃ s', findSourceById (update_claim_status st claim_id status vr).2 c.source_id = some s' ∧
      s'.verified_claims = s.verified_claims
        + (if c.status ≠ ClaimStatus.verified ∧ status = ClaimStatus.verified then 1 else 0) ∧
      s'.refuted_claims = s.refuted_claims
        + (if c.status ≠ ClaimStatus.refuted ∧ status = ClaimStatus.refuted then 1 else 0) ∧
      (status = c.status →
        s'.verified_claims = s.verified_claims ∧ s'.refuted_claims = s.refuted_claims) := by
  have hid : s.id = c.source_id := find?_id_of_eq_some hs
  constructor
  · simp [update_claim_status, hc]
  · simp only [update_claim_status, hc, findSourceById_setClaim, hs]
    by_cases hv : c.status ≠ ClaimStatus.verified ∧ status = ClaimStatus.verified
    · have hrneg : ¬(c.status ≠ ClaimStatus.refuted ∧ status = ClaimStatus.refuted) := by
        rintro ⟨-, hr⟩
        rw [hv.2] at hr
        exact ClaimStatus.noConfusion hr
      rw [if_pos hv]
      refine ⟨_, findSourceById_setSource_self hs hid, ?_, ?_, ?_⟩
      · rw [if_pos hv]
      · rw [if_neg hrneg]
        rfl
      · intro heq
        exact absurd (heq ▸ hv.2) hv.1
    · by_cases hr : c.status ≠ ClaimStatus.refuted ∧ status = ClaimStatus.refuted
      · rw [if_neg hv, if_pos hr]
        refine ⟨_, findSourceById_setSource_self hs hid, ?_, ?_, ?_⟩
        · rw [if_neg hv]
          rfl
        · rw [if_pos hr]
        · intro heq
          exact absurd (heq ▸ hr.2) hr.1
      · rw [if_neg hv, if_neg hr]
        exact ⟨s, hs, by rw [if_neg hv]; rfl, by rw [if_neg hr]; rfl, fun _ => ⟨rfl, rfl⟩⟩

/-- Witness for C1: transitioning the pending claim of `stW1` to VERIFIED
succeeds and bumps the source's `verified_claims` from 0 to 1, leaving
`refuted_claims` at 0. -/
theorem updateClaimStatus_counter_transitions_witness :
    (update_claim_status stW1 1 ClaimStatus.verified none).1 = true ∧
    ∃ s', findSourceById (update_claim_status stW1 1 ClaimStatus.verified none).2 1 = some s' ∧
      s'.verified_claims = 1 ∧ s'.refuted_claims = 0 := by
  obtain ⟨h1, s', h2, h3, h4, -⟩ :=
    updateClaimStatus_counter_transitions stW1 1 ClaimStatus.verified none
      (mkClaim 1 1 none ClaimStatus.pending) (mkSource 1 "A" 50 1 0 0) rfl rfl
  refine ⟨h1, s', h2, ?_, ?_⟩
  · rw [h3]
    simp [mkSource, mkClaim]
  · rw [h4]
    simp [mkSource, mkClaim]

/-- Counterexample for C2: on event "E" of `stC2` the code blends with
the mean credit score taken over the claims' sources counted once per
claim (giving (80+80+20)/3 = 60 and a final score of 53), not over the
distinct sources as the claim states (which would give (80+20)/2 = 50
and a final score of 50). -/
theorem calculateEventCredibility_distinct_cex :
    calculate_event_credibility stC2 "E" = CredibilityResult.result 53 0 0 3 "high" ∧
    eventCredibilityDistinctSpec stC2 "E" = CredibilityResult.result 50 0 0 3 "high" ∧
    (53 : ℚ) ≠ 50 := by
  refine ⟨?_, ?_, by norm_num⟩
  · with_unfolding_all rfl
  · with_unfolding_all rfl

/-- Amended C2: `calculate_event_credibility` returns the neutral
50/"low" dictionary on an event with no claims, and otherwise the
50 + 30·(verified/total) − 40·(refuted/total) baseline blended 0.7/0.3
with the mean credit score of the claims' sources counted once PER CLAIM
(multiplicity, not distinct sources; the blend is skipped when no
claim's source resolves), rounded to two decimals, with confidence
"high" iff the event has at least 3 claims. -/
theorem calculateEventCredibility_eq_perClaimSpec (st : Store) (event_id : String) :
    calculate_event_credibility st event_id = eventCredibilityPerClaimSpec st event_id := by
  unfold calculate_event_credibility eventCredibilityPerClaimSpec
  cases hE : get_event st event_id with
  | none => rfl
  | some e =>
      by_cases hemp : (get_claims_by_event st event_id).isEmpty
      · simp [hemp]
      · simp only [hemp, Bool.false_eq_true, if_false]
        rw [List.countP_eq_length_filter, List.countP_eq_length_filter]
        congr 1
        by_cases hss : (List.filterMap
            (fun c => (findSourceById st c.source_id).map (fun s => s.credit_score))
            (get_claims_by_event st event_id) : List ℤ).isEmpty
        · rw [if_pos hss, if_pos hss]
          congr 1
          ring
        · rw [if_neg hss, if_neg hss]
          congr 1
          ring

theorem creditInvariant_step (st : Store) (i : Nat) (change : Int) (now : Nat)
    (h : ∀ s ∈ st.sources, 0 ≤ s.credit_score ∧ s.credit_score ≤ 100) :
    ∀ s ∈ (update_source_credit_score st i change now).2.sources,
      0 ≤ s.credit_score ∧ s.credit_score ≤ 100 := by
  unfold update_source_credit_score
  cases hf : findSourceById st i with
  | none => simpa using h
  | some source =>
      intro s hsmem
      simp only [setSource, List.mem_map] at hsmem
      obtain ⟨x, hx, hfx⟩ := hsmem
      by_cases hxi : (x.id == source.id) = true
      · rw [if_pos hxi] at hfx
        subst hfx
        refine ⟨le_max_left _ _, ?_⟩
        exact max_le (by norm_num) (min_le_left _ _)
      · rw [if_neg hxi] at hfx
        subst hfx
        exact h x hx

theorem creditInvariant_fold (calls : List (Nat × Int × Nat)) :
    ∀ st : Store,
      (∀ s ∈ st.sources, 0 ≤ s.credit_score ∧ s.credit_score ≤ 100) →
      ∀ s ∈ (applyCreditUpdates st calls).sources,
        0 ≤ s.credit_score ∧ s.credit_score ≤ 100 := by
  induction calls with
  | nil => intro st h; simpa [applyCreditUpdates] using h
  | cons c cs ih =>
      intro st h
      have hstep := creditInvariant_step st c.1 c.2.1 c.2.2 h
      have : applyCreditUpdates st (c :: cs)
          = applyCreditUpdates (update_source_credit_score st c.1 c.2.1 c.2.2).2 cs := rfl
      rw [this]
      exact ih _ hstep

/-- Claim C3: `update_source_credit_score` on an existing source sets
`credit_score` to `clamp(old + delta, 0, 100)`, stamps `updated_at` and
returns success; on an unknown id it returns failure and the store is
untouched; consequently every source's credit score stays in [0,100]
under arbitrary sequences of such calls. -/
theorem updateSourceCreditScore_clamps :
    (∀ (st : Store) (i : Nat) (change : Int) (now : Nat) (s : Source),
      findSourceById st i = some s →
        (update_source_credit_score st i change now).1 = true ∧
        ∃ s', findSourceById (update_source_credit_score st i change now).2 i = some s' ∧
          s'.credit_score = max 0 (min 100 (s.credit_score + change)) ∧
          s'.updated_at = now) ∧
    (∀ (st : Store) (i : Nat) (change : Int) (now : Nat),
      findSourceById st i = none →
        update_source_credit_score st i change now = (false, st)) ∧
    (∀ (st : Store) (calls : List (Nat × Int × Nat)),
      (∀ s ∈ st.sources, 0 ≤ s.credit_score ∧ s.credit_score ≤ 100) →
      ∀ s ∈ (applyCreditUpdates st calls).sources,
        0 ≤ s.credit_score ∧ s.credit_score ≤ 100) := by
  refine ⟨?_, ?_, ?_⟩
  · intro st i change now s hs
    have hid : s.id = i := find?_id_of_eq_some hs
    constructor
    · simp [update_source_credit_score, hs]
    · simp only [update_source_credit_score, hs]
      exact ⟨_, findSourceById_setSource_self hs hid, rfl, rfl⟩
  · intro st i change now h
    simp [update_source_credit_score, h]
  · intro st calls h
    exact creditInvariant_fold calls st h

/-- Witness for C3: in `stW1` (source 1 at credit 50), a +200 delta
clamps to 100 and stamps `updated_at := 7`; an update to the unknown id
99 fails leaving the store unchanged; and the [0,100] invariant survives
a -200 update. -/
theorem updateSourceCreditScore_clamps_witness :
    (∃ s', findSourceById (update_source_credit_score stW1 1 200 7).2 1 = some s' ∧
       s'.credit_score = 100 ∧ s'.updated_at = 7) ∧
    update_source_credit_score stW1 99 5 7 = (false, stW1) ∧
    (∀ s ∈ (applyCreditUpdates stW1 [(1, -200, 3)]).sources,
       0 ≤ s.credit_score ∧ s.credit_score ≤ 100) := by
  refine ⟨?_, ?_, ?_⟩
  · obtain ⟨-, s', h1, h2, h3⟩ :=
      updateSourceCreditScore_clamps.1 stW1 1 200 7 (mkSource 1 "A" 50 1 0 0) rfl
    refine ⟨s', h1, ?_, h3⟩
    rw [h2]
    norm_num [mkSource, min_def, max_def]
  · exact updateSourceCreditScore_clamps.2.1 stW1 99 5 7 rfl
  · refine updateSourceCreditScore_clamps.2.2 stW1 [(1, -200, 3)] ?_
    intro s hs
    simp only [stW1, Store.empty, List.mem_singleton] at hs
    subst hs
    exact ⟨by norm_num [mkSource], by norm_num [mkSource]⟩

theorem find?_name_append (l : List Source) (nm : String) (s : Source)
    (hl : l.find? (fun x => x.name == nm) = none) (hs : s.name = nm) :
    (l ++ [s]).find? (fun x => x.name == nm) = some s := by
  simp [List.find?_append, hl, hs]

/-- Claim C4: `find_or_create_source` is idempotent by name — an
existing source is returned with the store unchanged and none of its
fields overwritten; a missing name creates exactly one row with credit
score 50 and zero counters; a second call with the same name returns the
first call's record and changes nothing. -/
theorem findOrCreateSource_idempotent :
    (∀ (st : Store) (nm : String) (ty : SourceType) (url desc : Option String)
        (now : Nat) (s : Source),
      get_source_by_name st nm = some s →
        find_or_create_source st nm ty url desc now = (s, st)) ∧
    (∀ (st : Store) (nm : String) (ty : SourceType) (url desc : Option String) (now : Nat),
      get_source_by_name st nm = none →
        (find_or_create_source st nm ty url desc now).1.credit_score = 50 ∧
        (find_or_create_source st nm ty url desc now).1.total_claims = 0 ∧
        (find_or_create_source st nm ty url desc now).1.verified_claims = 0 ∧
        (find_or_create_source st nm ty url desc now).1.refuted_claims = 0 ∧
        (find_or_create_source st nm ty url desc now).2.sources
          = st.sources ++ [(find_or_create_source st nm ty url desc now).1]) ∧
    (∀ (st : Store) (nm : String) (ty ty2 : SourceType)
        (url url2 desc desc2 : Option String) (now now2 : Nat),
      find_or_create_source (find_or_create_source st nm ty url desc now).2 nm ty2 url2 desc2 now2
        = ((find_or_create_source st nm ty url desc now).1,
           (find_or_create_source st nm ty url desc now).2)) := by
  refine ⟨?_, ?_, ?_⟩
  · intro st nm ty url desc now s h
    simp [find_or_create_source, h]
  · intro st nm ty url desc now h
    simp [find_or_create_source, h]
  · intro st nm ty ty2 url url2 desc desc2 now now2
    cases h : get_source_by_name st nm with
    | some s => simp [find_or_create_source, h]
    | none =>
        have h' : st.sources.find? (fun x => x.name == nm) = none := h
        simp [find_or_create_source, get_source_by_name, h', List.find?_append, List.find?_cons]

/-- Witness for C4: re-requesting existing source "A" of `stW1` with a
different type and url returns the stored record unchanged; creating "B"
in the empty store yields credit score 50; and a repeated call for "B"
returns the first call's record and store. -/
theorem findOrCreateSource_idempotent_witness :
    find_or_create_source stW1 "A" SourceType.blog (some "u") none 9
      = (mkSource 1 "A" 50 1 0 0, stW1) ∧
    (find_or_create_source Store.empty "B" SourceType.blog none none 2).1.credit_score = 50 ∧
    find_or_create_source (find_or_create_source Store.empty "B" SourceType.blog none none 2).2
        "B" SourceType.forum (some "u") none 3
      = ((find_or_create_source Store.empty "B" SourceType.blog none none 2).1,
         (find_or_create_source Store.empty "B" SourceType.blog none none 2).2) := by
  refine ⟨?_, ?_, ?_⟩
  · exact findOrCreateSource_idempotent.1 stW1 "A" SourceType.blog (some "u") none 9
      (mkSource 1 "A" 50 1 0 0) (by with_unfolding_all rfl)
  · exact (findOrCreateSource_idempotent.2.1 Store.empty "B" SourceType.blog none none 2
      (by with_unfolding_all rfl)).1
  · exact findOrCreateSource_idempotent.2.2 Store.empty "B" SourceType.blog SourceType.forum
      none (some "u") none none 2 3

theorem findSourceById_withClaims (st : Store) (cl : List Claim) (n sid : Nat) :
    findSourceById { st with claims := cl, next_claim_id := n } sid
      = findSourceById st sid := rfl

/-- Counterexample for C5: `create_claim` against the empty store (so
source id 1 does not exist) does not fail — it inserts the claim anyway
and returns it, contradicting "the call fails with SourceNotFound and no
Claim is inserted". -/
theorem createClaim_missing_source_cex :
    findSourceById Store.empty 1 = none ∧
    (create_claim Store.empty "text" 1 none 0).2.claims.length = 1 ∧
    (create_claim Store.empty "text" 1 none 0).1.source_id = 1 := by
  exact ⟨rfl, by with_unfolding_all rfl, rfl⟩

/-- Amended C5: `create_claim` always inserts the Claim and returns it;
when the referenced source exists its `total_claims` is incremented by
one in the same step, and when it does not exist the sources table is
left untouched (no failure is reported). -/
theorem createClaim_insert_and_counter :
    (∀ (st : Store) (text : String) (sid : Nat) (eid : Option String) (now : Nat) (s : Source),
      findSourceById st sid = some s →
        (create_claim st text sid eid now).2.claims
          = st.claims ++ [(create_claim st text sid eid now).1] ∧
        ∃ s', findSourceById (create_claim st text sid eid now).2 sid = some s' ∧
          s'.total_claims = s.total_claims + 1) ∧
    (∀ (st : Store) (text : String) (sid : Nat) (eid : Option String) (now : Nat),
      findSourceById st sid = none →
        (create_claim st text sid eid now).2.claims
          = st.claims ++ [(create_claim st text sid eid now).1] ∧
        (create_claim st text sid eid now).2.sources = st.sources) := by
  constructor
  · intro st text sid eid now s hs
    have hid : s.id = sid := find?_id_of_eq_some hs
    simp only [create_claim, findSourceById_withClaims, hs]
    exact ⟨rfl, _, findSourceById_setSource_self hs hid, rfl⟩
  · intro st text sid eid now h
    simp only [create_claim, findSourceById_withClaims, h]
    exact ⟨trivial, trivial⟩

/-- Witness for C5 (amended): creating a claim for existing source 1 of
`stW1` appends it and bumps `total_claims` from 1 to 2; creating a claim
for the unknown source 5 in the empty store leaves the sources table
empty. -/
theorem createClaim_insert_and_counter_witness :
    ((create_claim stW1 "x" 1 none 4).2.claims
        = stW1.claims ++ [(create_claim stW1 "x" 1 none 4).1] ∧
      ∃ s', findSourceById (create_claim stW1 "x" 1 none 4).2 1 = some s' ∧
        s'.total_claims = 2) ∧
    (create_claim Store.empty "y" 5 none 4).2.sources = Store.empty.sources := by
  constructor
  · obtain ⟨h1, s', h2, h3⟩ :=
      createClaim_insert_and_counter.1 stW1 "x" 1 none 4 (mkSource 1 "A" 50 1 0 0) rfl
    refine ⟨h1, s', h2, ?_⟩
    rw [h3]
    norm_num [mkSource]
  · exact (createClaim_insert_and_counter.2 Store.empty "y" 5 none 4 rfl).2

/-- Counterexample for C6: `create_claim_refutation` creates a self-loop
edge (refuting id = refuted id = 1) and stores the out-of-range
confidence 2 exactly as given — it neither rejects nor clamps. -/
theorem createClaimRefutation_no_validation_cex :
    (create_claim_refutation Store.empty 1 1 2 none 0).1.refuting_claim_id
        = (create_claim_refutation Store.empty 1 1 2 none 0).1.refuted_claim_id ∧
    (create_claim_refutation Store.empty 1 1 2 none 0).1.confidence = 2 ∧
    (create_claim_refutation Store.empty 1 1 2 none 0).2.refutations.length = 1 := by
  exact ⟨rfl, rfl, rfl⟩

/-- Amended C6: `create_claim_refutation` performs no validation at all —
for every input, including out-of-range confidence and equal claim ids,
it appends one edge carrying exactly the given fields. -/
theorem createClaimRefutation_unvalidated (st : Store) (a b : Nat) (conf : ℚ)
    (ev : Option (List String)) (now : Nat) :
    (create_claim_refutation st a b conf ev now).2.refutations
      = st.refutations ++ [(create_claim_refutation st a b conf ev now).1] ∧
    (create_claim_refutation st a b conf ev now).1.refuting_claim_id = a ∧
    (create_claim_refutation st a b conf ev now).1.refuted_claim_id = b ∧
    (create_claim_refutation st a b conf ev now).1.confidence = conf ∧
    (create_claim_refutation st a b conf ev now).1.evidence = ev.getD [] ∧
    (create_claim_refutation st a b conf ev now).1.created_at = now :=
  ⟨rfl, rfl, rfl, rfl, rfl, rfl⟩

/-- Claim C9: every mutating repository operation that reports failure
(unknown id) returns `false` together with the unmodified pre-call
store. -/
theorem failedMutations_preserve_store :
    (∀ (st : Store) (i : Nat) (change : Int) (now : Nat),
      findSourceById st i = none →
        update_source_credit_score st i change now = (false, st)) ∧
    (∀ (st : Store) (eid : String) (status : EventStatus) (cred : Option ℚ) (now : Nat),
      get_event st eid = none →
        update_event_status st eid status cred now = (false, st)) ∧
    (∀ (st : Store) (cid : Nat) (status : ClaimStatus) (vr : Option String),
      findClaimById st cid = none →
        update_claim_status st cid status vr = (false, st)) := by
  refine ⟨?_, ?_, ?_⟩
  · intro st i change now h
    simp [update_source_credit_score, h]
  · intro st eid status cred now h
    simp [update_event_status, h]
  · intro st cid status vr h
    simp [update_claim_status, h]

/-- Witness for C9: all three updates against the empty store fail and
return the store unchanged. -/
theorem failedMutations_preserve_store_witness :
    update_source_credit_score Store.empty 1 5 0 = (false, Store.empty) ∧
    update_event_status Store.empty "E" EventStatus.verified none 0 = (false, Store.empty) ∧
    update_claim_status Store.empty 1 ClaimStatus.verified none = (false, Store.empty) :=
  ⟨failedMutations_preserve_store.1 Store.empty 1 5 0 rfl,
   failedMutations_preserve_store.2.1 Store.empty "E" EventStatus.verified none 0 rfl,
   failedMutations_preserve_store.2.2 Store.empty 1 ClaimStatus.verified none rfl⟩

/-- Claim C10: `get_source_statistics` returns the empty dictionary
(modelled `none`) on an unknown source id, and otherwise the statistics
bundle whose `accuracy_rate` is 0 when `total_claims` is 0 and
`verified/total*100` otherwise. -/
theorem getSourceStatistics_guarded :
    (∀ (st : Store) (i : Nat),
      findSourceById st i = none → get_source_statistics st i = none) ∧
    (∀ (st : Store) (i : Nat) (s : Source),
      findSourceById st i = some s →
        ∃ stats, get_source_statistics st i = some stats ∧
          stats.total_claims = s.total_claims ∧
          stats.verified_claims = s.verified_claims ∧
          stats.refuted_claims = s.refuted_claims ∧
          stats.credit_score = s.credit_score ∧
          (s.total_claims = 0 → stats.accuracy_rate = 0) ∧
          (0 < s.total_claims →
            stats.accuracy_rate = (s.verified_claims : ℚ) / (s.total_claims : ℚ) * 100)) := by
  constructor
  · intro st i h
    simp [get_source_statistics, h]
  · intro st i s h
    simp only [get_source_statistics, h]
    refine ⟨_, rfl, rfl, rfl, rfl, rfl, ?_, ?_⟩
    · intro h0
      simp [h0]
    · intro h0
      simp only []
      rw [if_pos h0]

/-- Witness for C10: statistics of the unknown id 7 in the empty store
are the empty dictionary; statistics of source 1 of `stW1` (1 claim, 0
verified) have accuracy rate 0/1*100 = 0. -/
theorem getSourceStatistics_guarded_witness :
    get_source_statistics Store.empty 7 = none ∧
    ∃ stats, get_source_statistics stW1 1 = some stats ∧ stats.accuracy_rate = 0 := by
  constructor
  · exact getSourceStatistics_guarded.1 Store.empty 7 rfl
  · obtain ⟨stats, h1, -, -, -, -, -, hpos⟩ :=
      getSourceStatistics_guarded.2 stW1 1 (mkSource 1 "A" 50 1 0 0) rfl
    refine ⟨stats, h1, ?_⟩
    rw [hpos (by norm_num [mkSource])]
    norm_num [mkSource]

theorem trendingLE_trans (a b c : Source) :
    trendingLE a b → trendingLE b c → trendingLE a c := by
  simp only [trendingLE, decide_eq_true_eq]
  omega

theorem trendingLE_total (a b : Source) : trendingLE a b || trendingLE b a := by
  simp only [trendingLE, Bool.or_eq_true, decide_eq_true_eq]
  exact Nat.le_total b.total_claims a.total_claims

/-- Counterexample for C7: on `stTrend` (sources inserted A, B, C with
claim counts 5, 2, 2) BOTH `[A, B, C]` and `[A, C, B]` are admissible
results of `ORDER BY total_claims DESC` — the query carries no secondary
sort key, so the tied pair B, C may come back in either order.  The two
admissible results differ, refuting "ties broken by insertion order
(stable sort)" and "deterministic for unchanged underlying data". -/
theorem getTrendingSources_tie_order_cex :
    get_trending_sources stTrend 3
      [sourceSummaryOf (mkSource 1 "A" 50 5 0 0), sourceSummaryOf (mkSource 2 "B" 50 2 0 0),
       sourceSummaryOf (mkSource 3 "C" 50 2 0 0)] ∧
    get_trending_sources stTrend 3
      [sourceSummaryOf (mkSource 1 "A" 50 5 0 0), sourceSummaryOf (mkSource 3 "C" 50 2 0 0),
       sourceSummaryOf (mkSource 2 "B" 50 2 0 0)] ∧
    [sourceSummaryOf (mkSource 1 "A" 50 5 0 0), sourceSummaryOf (mkSource 2 "B" 50 2 0 0),
       sourceSummaryOf (mkSource 3 "C" 50 2 0 0)]
      ≠ [sourceSummaryOf (mkSource 1 "A" 50 5 0 0), sourceSummaryOf (mkSource 3 "C" 50 2 0 0),
         sourceSummaryOf (mkSource 2 "B" 50 2 0 0)] := by
  refine ⟨⟨[mkSource 1 "A" 50 5 0 0, mkSource 2 "B" 50 2 0 0, mkSource 3 "C" 50 2 0 0],
      List.Perm.refl _, ?_, rfl⟩,
    ⟨[mkSource 1 "A" 50 5 0 0, mkSource 3 "C" 50 2 0 0, mkSource 2 "B" 50 2 0 0],
      ?_, ?_, rfl⟩, ?_⟩
  · norm_num [mkSource, List.pairwise_cons]
  · exact (List.Perm.swap _ _ _).cons _
  · norm_num [mkSource, List.pairwise_cons]
  · intro h
    have := congrArg (fun l : List SourceSummary => l.get? 1) h
    simp [sourceSummaryOf, mkSource] at this

/-- Amended C7: every result `ORDER BY total_claims DESC LIMIT limit`
may return has at most `limit` summaries and is ordered by
`total_claims` descending, and at least one such result always exists;
the relative order of tied sources (and hence determinism) is NOT
guaranteed — the query has no secondary sort key. -/
theorem getTrendingSources_order_bound :
    (∀ (st : Store) (limit : Nat) (out : List SourceSummary),
      get_trending_sources st limit out →
        out.length ≤ limit ∧
        List.Pairwise (fun x y : SourceSummary => y.total_claims ≤ x.total_claims) out) ∧
    (∀ (st : Store) (limit : Nat), ∃ out, get_trending_sources st limit out) := by
  constructor
  · rintro st limit out ⟨l, -, hsorted, rfl⟩
    constructor
    · simp only [List.length_map, List.length_take]
      exact min_le_left _ _
    · rw [List.pairwise_map]
      exact (hsorted.sublist (List.take_sublist _ _)).imp (fun h => h)
  · intro st limit
    refine ⟨((st.sources.mergeSort trendingLE).take limit).map sourceSummaryOf,
      st.sources.mergeSort trendingLE, List.mergeSort_perm st.sources trendingLE, ?_, rfl⟩
    refine (List.sorted_mergeSort trendingLE_trans trendingLE_total st.sources).imp ?_
    intro a b h
    simpa [trendingLE] using h

/-- Witness for C7 (amended): the admissible result `[A, B]` of
`stTrend` at limit 2 has at most 2 entries and is sorted descending. -/
theorem getTrendingSources_order_bound_witness :
    [sourceSummaryOf (mkSource 1 "A" 50 5 0 0),
     sourceSummaryOf (mkSource 2 "B" 50 2 0 0)].length ≤ 2 ∧
    List.Pairwise (fun x y : SourceSummary => y.total_claims ≤ x.total_claims)
      [sourceSummaryOf (mkSource 1 "A" 50 5 0 0),
       sourceSummaryOf (mkSource 2 "B" 50 2 0 0)] := by
  refine getTrendingSources_order_bound.1 stTrend 2 _
    ⟨[mkSource 1 "A" 50 5 0 0, mkSource 2 "B" 50 2 0 0, mkSource 3 "C" 50 2 0 0],
      List.Perm.refl _, ?_, rfl⟩
  norm_num [mkSource, List.pairwise_cons]

theorem roundHalfEven_bounds (q : ℚ) :
    q - 1/2 ≤ (roundHalfEven q : ℚ) ∧ (roundHalfEven q : ℚ) ≤ q + 1/2 := by
  simp only [roundHalfEven]
  have h1 : ((⌊q⌋ : ℤ) : ℚ) ≤ q := Int.floor_le q
  have h2 : q < (⌊q⌋ : ℤ) + 1 := Int.lt_floor_add_one q
  by_cases hlt : q - (⌊q⌋ : ℤ) < 1/2
  · rw [if_pos hlt]
    constructor <;> linarith
  · rw [if_neg hlt]
    by_cases hgt : (1 : ℚ)/2 < q - (⌊q⌋ : ℤ)
    · rw [if_pos hgt]
      constructor <;> push_cast <;> linarith
    · rw [if_neg hgt]
      have heq : q - (⌊q⌋ : ℤ) = 1/2 := by linarith
      by_cases hev : Even ⌊q⌋
      · rw [if_pos hev]
        constructor <;> linarith
      · rw [if_neg hev]
        constructor <;> push_cast <;> linarith

theorem round2_bounds (q lo hi : ℚ) (hlo : lo ≤ q) (hhi : q ≤ hi) :
    lo - 1/200 ≤ round2 q ∧ round2 q ≤ hi + 1/200 := by
  have h := roundHalfEven_bounds (q * 100)
  unfold round2
  constructor
  · linarith [h.1]
  · linarith [h.2]

theorem card_mul_le_listSum (l : List ℚ) (lo : ℚ) (h : ∀ x ∈ l, lo ≤ x) :
    lo * l.length ≤ l.sum := by
  induction l with
  | nil => simp
  | cons a t ih =>
      have ha := h a (by simp)
      have ht := ih (fun x hx => h x (List.mem_cons_of_mem _ hx))
      simp only [List.sum_cons, List.length_cons]
      push_cast
      linarith

theorem listSum_le_card_mul (l : List ℚ) (hi : ℚ) (h : ∀ x ∈ l, x ≤ hi) :
    l.sum ≤ hi * l.length := by
  induction l with
  | nil => simp
  | cons a t ih =>
      have ha := h a (by simp)
      have ht := ih (fun x hx => h x (List.mem_cons_of_mem _ hx))
      simp only [List.sum_cons, List.length_cons]
      push_cast
      linarith

theorem listMean_bounds (l : List ℚ) (lo hi : ℚ)
    (hne : l ≠ []) (h : ∀ x ∈ l, lo ≤ x ∧ x ≤ hi) :
    lo ≤ l.sum / l.length ∧ l.sum / l.length ≤ hi := by
  have hlen : (0 : ℚ) < l.length := by
    have : 0 < l.length := List.length_pos.mpr hne
    exact_mod_cast this
  constructor
  · rw [le_div_iff₀ hlen]
    exact card_mul_le_listSum l lo (fun x hx => (h x hx).1)
  · rw [div_le_iff₀ hlen]
    exact listSum_le_card_mul l hi (fun x hx => (h x hx).2)

theorem blend_round_bounds (base m : ℚ) (hb1 : 10 ≤ base) (hb2 : base ≤ 80)
    (hm1 : 0 ≤ m) (hm2 : m ≤ 100) :
    7 ≤ base * (7/10) + m * (3/10) ∧ base * (7/10) + m * (3/10) ≤ 86 ∧
    0 ≤ round2 (base * (7/10) + m * (3/10)) ∧
    round2 (base * (7/10) + m * (3/10)) ≤ 100 := by
  have h1 : 7 ≤ base * (7/10) + m * (3/10) := by linarith
  have h2 : base * (7/10) + m * (3/10) ≤ 86 := by linarith
  have hb := round2_bounds _ 7 86 h1 h2
  exact ⟨h1, h2, by linarith [hb.1], by linarith [hb.2]⟩

theorem score0_bounds (v r t : Nat) (ht : 0 < t) (hv : v ≤ t) (hr : r ≤ t) :
    (10 : ℚ) ≤ 50 + ((v : ℚ) / (t : ℚ)) * 30 - ((r : ℚ) / (t : ℚ)) * 40 ∧
    50 + ((v : ℚ) / (t : ℚ)) * 30 - ((r : ℚ) / (t : ℚ)) * 40 ≤ 80 := by
  have ht' : (0 : ℚ) < (t : ℚ) := by exact_mod_cast ht
  have h1 : (v : ℚ) / (t : ℚ) ≤ 1 := by
    rw [div_le_one ht']
    exact_mod_cast hv
  have h2 : (0 : ℚ) ≤ (v : ℚ) / (t : ℚ) := by positivity
  have h3 : (r : ℚ) / (t : ℚ) ≤ 1 := by
    rw [div_le_one ht']
    exact_mod_cast hr
  have h4 : (0 : ℚ) ≤ (r : ℚ) / (t : ℚ) := by positivity
  constructor <;> linarith

/-- Claim C8: `calculate_event_credibility` applies no clamping step
(on `stClamp`, whose single source carries credit 1000, it returns 335),
yet whenever every stored source's credit score lies in [0,100] and the
event has at least one claim, the pre-rounding score lies in [7,86] and
the returned rounded score lies in [0,100]. -/
theorem calculateEventCredibility_in_range :
    (∀ (st : Store) (event_id : String) (e : Event),
      get_event st event_id = some e →
      get_claims_by_event st event_id ≠ [] →
      (∀ s ∈ st.sources, (0 : ℤ) ≤ s.credit_score ∧ s.credit_score ≤ 100) →
      ∃ q v r t conf, calculate_event_credibility st event_id
          = CredibilityResult.result (round2 q) v r t conf ∧
        7 ≤ q ∧ q ≤ 86 ∧ 0 ≤ round2 q ∧ round2 q ≤ 100) ∧
    calculate_event_credibility stClamp "E" = CredibilityResult.result 335 0 0 1 "low" := by
  constructor
  · intro st event_id e hE hne hrange
    have hempty : ¬((get_claims_by_event st event_id).isEmpty = true) := by
      simpa using hne
    have ht : 0 < (get_claims_by_event st event_id).length := List.length_pos.mpr hne
    have hv : (List.filter (fun c => c.status == ClaimStatus.verified)
        (get_claims_by_event st event_id)).length
          ≤ (get_claims_by_event st event_id).length := List.length_filter_le _ _
    have hr : (List.filter (fun c => c.status == ClaimStatus.refuted)
        (get_claims_by_event st event_id)).length
          ≤ (get_claims_by_event st event_id).length := List.length_filter_le _ _
    have hbase := score0_bounds _ _ _ ht hv hr
    simp only [calculate_event_credibility, hE, if_neg hempty]
    by_cases hss : (List.filterMap
        (fun c => (findSourceById st c.source_id).map (fun s => s.credit_score))
        (get_claims_by_event st event_id) : List ℤ).isEmpty
    · rw [if_pos hss]
      refine ⟨_, _, _, _, _, rfl, by linarith [hbase.1], by linarith [hbase.2], ?_, ?_⟩
      · have := (round2_bounds _ 10 80 hbase.1 hbase.2).1
        linarith
      · have := (round2_bounds _ 10 80 hbase.1 hbase.2).2
        linarith
    · rw [if_neg hss]
      have hnel : (List.filterMap
          (fun c => (findSourceById st c.source_id).map (fun s => s.credit_score))
          (get_claims_by_event st event_id) : List ℤ) ≠ [] := by
        intro h
        exact hss (by simp [h])
      have hmem : ∀ x ∈ (List.filterMap
          (fun c => (findSourceById st c.source_id).map (fun s => s.credit_score))
          (get_claims_by_event st event_id) : List ℤ).map (fun x : ℤ => (x : ℚ)),
          (0 : ℚ) ≤ x ∧ x ≤ 100 := by
        intro x hx
        obtain ⟨z, hz, rfl⟩ := List.mem_map.mp hx
        obtain ⟨c, -, hc⟩ := List.mem_filterMap.mp hz
        obtain ⟨src, hsrc, hzc⟩ := Option.map_eq_some'.mp hc
        have hmem' : src ∈ st.sources := List.mem_of_find?_eq_some hsrc
        obtain ⟨hl, hh⟩ := hrange src hmem'
        subst hzc
        exact ⟨by exact_mod_cast hl, by exact_mod_cast hh⟩
      have hmapne : ((List.filterMap
          (fun c => (findSourceById st c.source_id).map (fun s => s.credit_score))
          (get_claims_by_event st event_id) : List ℤ).map (fun x : ℤ => (x : ℚ))) ≠ [] := by
        simpa using hnel
      have hmean := listMean_bounds _ 0 100 hmapne hmem
      rw [List.length_map] at hmean
      have hB := blend_round_bounds _ _ hbase.1 hbase.2 hmean.1 hmean.2
      exact ⟨_, _, _, _, _, rfl, hB.1, hB.2.1, hB.2.2.1, hB.2.2.2⟩
  · with_unfolding_all rfl

/-- Witness for C8: on `stC2` (three claims, source credits 80 and 20,
all within [0,100]) the returned credibility score is a rounded value of
a pre-rounding score in [7,86] and itself lies in [0,100]. -/
theorem calculateEventCredibility_in_range_witness :
    ∃ q v r t conf, calculate_event_credibility stC2 "E"
        = CredibilityResult.result (round2 q) v r t conf ∧
      7 ≤ q ∧ q ≤ 86 ∧ 0 ≤ round2 q ∧ round2 q ≤ 100 := by
  refine calculateEventCredibility_in_range.1 stC2 "E" (mkEvent "E")
    (by with_unfolding_all rfl) ?_ ?_
  · have hcl : get_claims_by_event stC2 "E"
        = [mkClaim 1 1 (some "E") ClaimStatus.pending,
           mkClaim 2 1 (some "E") ClaimStatus.pending,
           mkClaim 3 2 (some "E") ClaimStatus.pending] := by
      with_unfolding_all rfl
    rw [hcl]
    simp
  · intro s hs
    simp [stC2] at hs
    rcases hs with h | h <;> subst h <;>
      exact ⟨by norm_num [mkSource], by norm_num [mkSource]⟩

end NewsEKG
